import Mathlib

/-!
Verification of `match_wrapper.match` (MATCH utility command-string wrappers).

The source is Python 2 (it uses `basestring`).  We shallowly embed the one
class with branching logic, `FlagFormatter`, and the command builders
`calcsfh`, `hybridMC` and `zcmerge`.  Python runtime values that can appear
as flag values are modelled by the inductive `Val`; Python exceptions that
the formatting code can raise or catch are modelled by `PyErr`; fallible
code returns `Except PyErr _`.  A Python float is carried as a rational:
none of the verified properties depend on binary rounding, only on
truthiness of zero and on which values a format code accepts.
-/

/-- Python exception classes relevant to `FlagFormatter.__call__`:
`KeyError` (a `LookupError` subclass, from `self.fmt_dict[key]`),
`ValueError` and `TypeError` (raised/caught by the `str.format` fallback
chain), `AttributeError` (calling `.format` on a list or tuple of
patterns, which has no such method). -/
inductive PyErr where
  | keyError
  | valueError
  | typeError
  | attributeError
  deriving DecidableEq, Repr

/-- A Python runtime value as it can appear as a flag value in the source:
`True`, `False`, `None`, an int, a float (carried as a rational), a string,
or a list/tuple of such values. -/
inductive Val where
  | pyTrue
  | pyFalse
  | pyNone
  | int (n : Int)
  | float (q : ℚ)
  | str (s : String)
  | seq (vs : List Val)

/-- Python truthiness (`bool(val)`) for the values of `Val`:
numbers are falsy iff zero, strings and sequences iff empty. -/
def truthy : Val → Bool
  | .pyTrue => true
  | .pyFalse => false
  | .pyNone => false
  | .int n => !(n == 0)
  | .float q => !(q == 0)
  | .str s => !(s == "")
  | .seq vs => !vs.isEmpty

/-- The check `val is True` on line 163.  Only the actual `True` object
satisfies it (`1 is True` is false in CPython). -/
def isPyTrue : Val → Bool
  | .pyTrue => true
  | _ => false

/-- The check `val is 0` on line 165.  CPython caches small integers, so it
holds exactly for the int `0`; it is false for `False` (a `bool`) and for
the float `0.0`, which are distinct objects. -/
def isIntZero : Val → Bool
  | .int n => n == 0
  | _ => false

/-- A single format pattern as used in `fmt_dict`:
`d` is the string pattern `'{:d}'`, `f prec` is `'{:.<prec>f}'`
(the defaults use `f 2`, i.e. `'{:.2f}'`), and `s` is `'{:s}'`. -/
inductive Pat where
  | d
  | f (prec : Nat)
  | s
  deriving DecidableEq, Repr

/-- A format rule registered for a flag name: either a single pattern
string, or (as the class docstring allows for multivalued flags such as
`diskAv`) a list/tuple of pattern strings. -/
inductive Fmt where
  | pat (p : Pat)
  | seq (ps : List Pat)
  deriving DecidableEq, Repr

/-- Fixed-point rendering of a rational with `prec` digits after the point,
modelling Python's `'{:.<prec>f}'.format` at the represented value
(sign, integer part, zero-padded fractional part).  The scaled value is
rounded to the nearest integer, `m = ⌊q·10^prec + 1/2⌋`, computed on the
numerator and denominator with integer floor division.  (CPython rounds
the underlying binary double half-even; no verified property depends on
the digits of an inexact value, so rounding the exact rational stands
in.) -/
def formatFixed (q : ℚ) (prec : Nat) : String :=
  let p10 : Int := ((10 ^ prec : Nat) : Int)
  let m : Int := Int.fdiv (2 * (q.num * p10) + (q.den : Int)) (2 * (q.den : Int))
  let sign := if m < 0 then "-" else ""
  let a := m.natAbs
  let ip := a / 10 ^ prec
  let fp := a % 10 ^ prec
  if prec == 0 then
    sign ++ toString ip
  else
    let fs := toString fp
    let pad := String.mk (List.replicate (prec - fs.length) '0')
    sign ++ toString ip ++ "." ++ pad ++ fs

/-- `pattern.format(v)` for a single pattern and a single value, with the
Python 2 outcomes: `'{:d}'` accepts ints and bools and raises `ValueError`
otherwise; `'{:.Nf}'` accepts ints, floats and bools and raises
`ValueError` otherwise; `'{:s}'` accepts strings and raises `ValueError`
otherwise. -/
def Pat.format : Pat → Val → Except PyErr String
  | .d, .int n => .ok (toString n)
  | .d, .pyTrue => .ok "1"
  | .d, .pyFalse => .ok "0"
  | .d, _ => .error .valueError
  | .f prec, .int n => .ok (formatFixed (mkRat n 1) prec)
  | .f prec, .float q => .ok (formatFixed q prec)
  | .f prec, .pyTrue => .ok (formatFixed 1 prec)
  | .f prec, .pyFalse => .ok (formatFixed 0 prec)
  | .f _, _ => .error .valueError
  | .s, .str s2 => .ok s2
  | .s, _ => .error .valueError

/-- The default `fmt_dict` built in `FlagFormatter.__init__`
(lines 109-134), as an association list in source order. -/
def defaultFmtDict : List (String × Fmt) :=
  [("dAv", .pat (.f 2)),
   ("diskAv", .pat (.f 2)),
   ("dAvy", .pat (.f 2)),
   ("zerobin", .pat .d),
   ("incmult", .pat (.f 2)),
   ("incmultsig", .pat (.f 2)),
   ("errmult", .pat (.f 2)),
   ("errmultsig", .pat (.f 2)),
   ("logterr", .pat (.f 2)),
   ("logterrsig", .pat (.f 2)),
   ("mbolerr", .pat (.f 2)),
   ("mbolerrsig", .pat (.f 2)),
   ("mcseed", .pat (.f 2)),
   ("alpha", .pat (.f 2)),
   ("dt", .pat (.f 2)),
   ("nburn", .pat .d),
   ("nmc", .pat .d),
   ("nt", .pat .d),
   ("nsfr", .pat .d),
   ("pscape", .pat (.f 2)),
   ("tint", .pat (.f 2))]

/-- Python dict assignment `d[k] = v` on an association list: replace the
binding of the first occurrence of `k`, or append a new binding. -/
def updAssoc {β : Type} : List (String × β) → String → β → List (String × β)
  | [], k, v => [(k, v)]
  | p :: rest, k, v => if p.1 == k then (k, v) :: rest else p :: updAssoc rest k v

/-- One iteration of the override loop of `FlagFormatter.__init__`
(lines 135-137): overwrite the entry only `if key in self.fmt_dict`,
silently ignoring unknown keys. -/
def initStep (d : List (String × Fmt)) (kv : String × Fmt) : List (String × Fmt) :=
  if (d.lookup kv.1).isSome then updAssoc d kv.1 kv.2 else d

/-- `FlagFormatter.__init__(**kwargs)` (lines 108-137): start from the
default `fmt_dict` and fold the override loop over the keyword arguments
in order. -/
def FlagFormatter.init (kwargs : List (String × Fmt)) : List (String × Fmt) :=
  kwargs.foldl initStep defaultFmtDict

/-- A Python list comprehension over `f`: elements evaluated left to
right, the first exception propagating.  Used by both the formatter
(the comprehensions of lines 173-178) and the builders (consuming the
flag-string generator of line 298). -/
def mapExcept {α β : Type} (f : α → Except PyErr β) : List α → Except PyErr (List β)
  | [] => .ok []
  | a :: as =>
    match f a with
    | .error e => .error e
    | .ok b =>
      match mapExcept f as with
      | .error e => .error e
      | .ok bs => .ok (b :: bs)

/-- The nested `try/except` fallback chain of `FlagFormatter.__call__`
(lines 171-178), reached when `val` is not a string.

* value sequence, pattern sequence: `zip(val, fmt)` pairs them up,
  silently truncating to the shorter; each pair is formatted.  Any
  format failure is a `ValueError`, caught by `except (TypeError,
  ValueError)`, after which the second attempt iterates `val` and calls
  `fmt.format(v)` on the list of patterns, raising `AttributeError`
  (uncaught, since the second `except` only catches `TypeError`).
* value sequence, single pattern: `zip(val, fmt)` iterates the pattern
  string itself character-wise; formatting with its leading lone brace
  raises `ValueError` at the first element (the sequence is nonempty here
  because empty sequences are falsy and never reach formatting), caught;
  the second attempt formats each element with the single pattern, and
  any `ValueError` from an element propagates.
* lone value, single pattern: `zip` raises `TypeError` (caught), iterating
  `val` raises `TypeError` (caught), and the third attempt formats the
  value directly, any `ValueError` propagating.
* lone value, pattern sequence: as above until the third attempt, where
  `fmt.format(val)` on a list raises `AttributeError`. -/
def tryFormats (fmt : Fmt) (val : Val) : Except PyErr (List String) :=
  match val, fmt with
  | .seq vs, .seq ps =>
    match mapExcept (fun vp => vp.2.format vp.1) (vs.zip ps) with
    | .ok l => .ok l
    | .error _ => .error .attributeError
  | .seq vs, .pat p => mapExcept p.format vs
  | v, .pat p => (p.format v).map (fun s2 => [s2])
  | _, .seq _ => .error .attributeError

/-- `FlagFormatter.__call__(key, val, delim)` (lines 139-184):

* `val is True`: return `'-key'` with no value (lines 163-164);
* `val` truthy, or the int `0` (line 165): look up the format rule
  (`KeyError` if `key` is unregistered), format the value --- a string
  value is caught first and formatted whole, so it is never mistaken for
  a sequence (lines 167-170); otherwise the `tryFormats` fallback chain
  runs --- and return `'-key=' + delim.join(valstr_list)`;
* otherwise (`False`, `None`, empty sequences, and any other falsy value
  that is not the int `0`, such as the float `0.0`): return `None`. -/
def FlagFormatter.call (fmt_dict : List (String × Fmt)) (key : String)
    (val : Val) (delim : String) : Except PyErr (Option String) :=
  if isPyTrue val then
    .ok (some ("-" ++ key))
  else if truthy val || isIntZero val then
    match fmt_dict.lookup key with
    | none => .error .keyError
    | some fmt =>
      match val with
      | .str s2 =>
        match fmt with
        | .pat p => (p.format (.str s2)).map (fun t => some ("-" ++ key ++ "=" ++ t))
        | .seq _ => .error .attributeError
      | v =>
        (tryFormats fmt v).map
          (fun l => some ("-" ++ key ++ "=" ++ String.intercalate delim l))
  else
    .ok none

/-- `kwargs.get(k)` with default `None`: look up a keyword argument,
absent keys giving Python `None`. -/
def getKw (kw : List (String × Val)) (k : String) : Val :=
  (kw.lookup k).getD .pyNone

/-- Python dict assignment `kwargs[k] = v` for the keyword dictionary. -/
def pySet (kw : List (String × Val)) (k : String) (v : Val) : List (String × Val) :=
  updAssoc kw k v

/-- One mutually-exclusive selection branch of `calcsfh` (the `mode`,
`model` and `transformation` branches at lines 269-272, 283-288 and
291-294 share this shape): read `kwargs.get(selKey)`; if it is truthy,
set `kwargs[value] = True` and return the value as an extra flag name.
A truthy selection value that is not a string makes the call fail at
runtime (an unhashable key in the dict assignment, or a format error when
the flag is rendered); the model reports that as a single error. -/
def selApply (kw : List (String × Val)) (selKey : String) :
    Except PyErr (List (String × Val) × Option String) :=
  match getKw kw selKey with
  | .str s2 =>
    if s2 == "" then .ok (kw, none)
    else .ok (pySet kw s2 .pyTrue, some s2)
  | v => if truthy v then .error .typeError else .ok (kw, none)

/-- The always-considered flag names of `calcsfh`: the "other mode flags"
(line 275) followed by the "model generation flags" (lines 278-280), in
source order.  (`appDmod` appears here although `fmt_dict` has no entry
for it, so a truthy `appDmod` value raises `KeyError` when rendered.) -/
def calcsfhFixedFlags : List String :=
  ["ddist", "full", "verb", "allstars", "mcdata", "allmcdata",
   "dAv", "diskAv", "dAvy", "appDmod", "zerobin", "incmult",
   "incmultsig", "errmult", "errmultsig", "logterr",
   "logterrsig", "mbolerr", "mbolerrsig", "mcseed"]

/-- Lines 266-294 of `calcsfh`: apply the `mode`, `model` and
`transformation` branches in order, appending `'alpha'` to the flag list
only when the selected model is in `['DART']`, and return the mutated
keyword dictionary together with the assembled `flag_list`. -/
def calcsfhFlags (kw : List (String × Val)) :
    Except PyErr (List (String × Val) × List String) :=
  match selApply kw "mode" with
  | .error e => .error e
  | .ok (kw1, modeSel) =>
    match selApply kw1 "model" with
    | .error e => .error e
    | .ok (kw2, modelSel) =>
      match selApply kw2 "transformation" with
      | .error e => .error e
      | .ok (kw3, transSel) =>
        .ok (kw3, modeSel.toList ++ calcsfhFixedFlags ++ modelSel.toList
          ++ (if modelSel = some "DART" then ["alpha"] else [])
          ++ transSel.toList)

/-- Lines 297-299 (shared by every builder): render each flag of the
active list with the formatter (the default `FlagFormatter`; the
`formatter` keyword is modelled as absent) at `kwargs.get(flag)`, in
order, and filter out the `None` results.  An exception from the
formatter propagates when the generator is consumed. -/
def renderFlags (fmts : List (String × Fmt)) (kw : List (String × Val))
    (flags : List String) : Except PyErr (List String) :=
  match mapExcept (fun f => FlagFormatter.call fmts f (getKw kw f) ",") flags with
  | .error e => .error e
  | .ok opts => .ok (opts.filterMap id)

/-- Lines 300-301: append the space-joined flag tokens to the command,
only if at least one token survived. -/
def joinCmd (cmd : String) (toks : List String) : String :=
  if toks.isEmpty then cmd else cmd ++ " " ++ String.intercalate " " toks

/-- Lines 304-306: if `kwargs.get('outfile')` is truthy, append the
stdout redirection `' > outfile'`.  A truthy non-string `outfile` fails
when formatted into the command; the model reports that as an error. -/
def outfileStep (kw : List (String × Val)) (cmd : String) : Except PyErr String :=
  match getKw kw "outfile" with
  | .str s2 => if s2 == "" then .ok cmd else .ok (cmd ++ " > " ++ s2)
  | v => if truthy v then .error .typeError else .ok cmd

/-- Lines 308-315: with a truthy `norun` the command string is returned;
otherwise it is handed to `subprocess.call` and the function returns
`None` (the execution itself is outside the model). -/
def norunStep (kw : List (String × Val)) (cmd : String) : Option String :=
  if truthy (getKw kw "norun") then some cmd else none

/-- The flag tokens assembled by a `calcsfh` call (the part of lines
266-299 that feeds the command string). -/
def calcsfhTokens (kw : List (String × Val)) : Except PyErr (List String) :=
  match calcsfhFlags kw with
  | .error e => .error e
  | .ok (kw3, flagList) => renderFlags defaultFmtDict kw3 flagList

/-- `calcsfh(paramfile, photfile, fakefile, sfhfile, **kwargs)`
(lines 187-315): positional prefix, flag tokens, optional redirection,
and the `norun` dry-run switch.  `some cmd` is the returned command
string; `none` means the command was executed. -/
def calcsfh (paramfile photfile fakefile sfhfile : String)
    (kw : List (String × Val)) : Except PyErr (Option String) :=
  let cmd := "calcsfh " ++ paramfile ++ " " ++ photfile ++ " "
    ++ fakefile ++ " " ++ sfhfile
  match calcsfhFlags kw with
  | .error e => .error e
  | .ok (kw3, flagList) =>
    match renderFlags defaultFmtDict kw3 flagList with
    | .error e => .error e
    | .ok toks =>
      match outfileStep kw3 (joinCmd cmd toks) with
      | .error e => .error e
      | .ok cmd2 => .ok (norunStep kw3 cmd2)

/-- The static flag list of `hybridMC` (lines 363-364).  (`countall` and
`keepall` have no `fmt_dict` entry, so they only work as boolean flags.) -/
def hybridMCFlagList : List String :=
  ["countall", "dt", "keepall", "nburn", "nmc", "nt", "nsfr",
   "pscape", "tint"]

/-- Command assembly of `hybridMC(hmcdatfile, hmcsfhfile, **kwargs)`
(lines 361-376).  The command prefix is
`'hybridMC {0:s} {1:s}'.format(hmcsfhfile, hmcdatfile)` (line 361): the
SFH file comes first, the binary data file second, reversing the
function's own parameter order. -/
def hybridMCCmd (hmcdatfile hmcsfhfile : String)
    (kw : List (String × Val)) : Except PyErr String :=
  match renderFlags defaultFmtDict kw hybridMCFlagList with
  | .error e => .error e
  | .ok toks =>
    outfileStep kw
      (joinCmd ("hybridMC " ++ hmcsfhfile ++ " " ++ hmcdatfile) toks)

/-- Lines 378-385 of `hybridMC`: dry-run switch around the assembled
command. -/
def hybridMC (hmcdatfile hmcsfhfile : String)
    (kw : List (String × Val)) : Except PyErr (Option String) :=
  match hybridMCCmd hmcdatfile hmcsfhfile kw with
  | .error e => .error e
  | .ok cmd2 => .ok (norunStep kw cmd2)

/-- The `zcbfile_list` parameter of `zcmerge` may be a single string or a
list of strings (line 422 checks `isinstance(..., basestring)`). -/
inductive StrOrList where
  | one (x : String)
  | many (xs : List String)

/-- `zcmerge(zcbfile_list, merged_zcbfile, **kwargs)` (lines 388-433):
the optional `-absolute` flag (rendered by a fresh default
`FlagFormatter` and appended only if the token is truthy), the
space-joined input files, the redirection into the merged file, and the
`norun` switch. -/
def zcmerge (zcbfileList : StrOrList) (mergedZcbfile : String)
    (kw : List (String × Val)) : Except PyErr (Option String) :=
  match FlagFormatter.call defaultFmtDict "absolute" (getKw kw "absolute") "," with
  | .error e => .error e
  | .ok flagstr =>
    let cmd := match flagstr with
      | some s2 => if s2 == "" then "zcmerge" else "zcmerge" ++ " " ++ s2
      | none => "zcmerge"
    let files := match zcbfileList with
      | .one x => x
      | .many xs => String.intercalate " " xs
    .ok (norunStep kw (cmd ++ " " ++ files ++ " > " ++ mergedZcbfile))


/-! ### Helper lemmas about the formatter -/

/-- A `True` value renders as a presence-only flag, with no rule lookup. -/
theorem callTrueEq (fmts : List (String × Fmt)) (key delim : String) :
    FlagFormatter.call fmts key .pyTrue delim = .ok (some ("-" ++ key)) := rfl

/-- Case analysis on a non-raising `__call__` outcome: a token `'-key'`
(presence-only), a token `'-key=...'`, or `None` --- and `None` happens
exactly in the line-181 branch, where the value is falsy and is not the
int `0`. -/
theorem call_ok_cases (fmts : List (String × Fmt)) (key delim : String)
    (val : Val) (x : Option String)
    (h : FlagFormatter.call fmts key val delim = .ok x) :
    x = some ("-" ++ key) ∨ (∃ rest, x = some ("-" ++ key ++ "=" ++ rest)) ∨
      (x = none ∧ truthy val = false ∧ isIntZero val = false) := by
  unfold FlagFormatter.call at h
  split at h
  · exact Or.inl (Except.ok.inj h).symm
  · rename_i hT
    split at h
    · rename_i hG
      split at h
      · exact absurd h (by simp)
      · rename_i fmt hL
        split at h
        · rename_i s2
          split at h
          · rename_i p
            cases hF : p.format (Val.str s2) with
            | ok u =>
              rw [hF] at h
              simp only [Except.map] at h
              exact Or.inr (Or.inl ⟨u, (Except.ok.inj h).symm⟩)
            | error e => rw [hF] at h; exact absurd h (by simp [Except.map])
          · exact absurd h (by simp)
        · rename_i v hne
          cases hF : tryFormats fmt val with
          | ok l =>
            rw [hF] at h
            simp only [Except.map] at h
            exact Or.inr (Or.inl ⟨_, (Except.ok.inj h).symm⟩)
          | error e => rw [hF] at h; exact absurd h (by simp [Except.map])
    · rename_i hG
      have hG2 : (truthy val || isIntZero val) = false := by simpa using hG
      exact Or.inr (Or.inr ⟨(Except.ok.inj h).symm,
        (Bool.or_eq_false_iff.mp hG2).1, (Bool.or_eq_false_iff.mp hG2).2⟩)

/-- `__call__` returns `None` exactly when the value is falsy and is not
the int `0` (the `val or val is 0` guard of line 165 fails). -/
theorem call_none_iff (fmts : List (String × Fmt)) (key delim : String) (val : Val) :
    FlagFormatter.call fmts key val delim = .ok none ↔
      (truthy val = false ∧ isIntZero val = false) := by
  constructor
  · intro h
    rcases call_ok_cases fmts key delim val none h with h1 | ⟨r, h1⟩ | ⟨_, h2, h3⟩
    · exact absurd h1 (by simp)
    · exact absurd h1 (by simp)
    · exact ⟨h2, h3⟩
  · rintro ⟨h1, h2⟩
    have hT : isPyTrue val = false := by
      cases val <;> simp_all [isPyTrue, truthy]
    simp [FlagFormatter.call, hT, h1, h2]

/-! ### C1 -/

/-- C1, counterexample: the float `0.0` is a zero value, yet
`FlagFormatter.__call__` suppresses it --- line 165 tests `val is 0`,
which only the int `0` satisfies, so `call('dAv', 0.0)` returns `None`
instead of the token `-dAv=0.00` the claim requires for "any zero
value". -/
theorem c1_float_zero_suppressed :
    FlagFormatter.call defaultFmtDict "dAv" (Val.float 0) "," = Except.ok none := by
  rfl

/-- C1, amended: `__call__` returns `None` exactly when the value is
falsy (boolean false, `None`, an empty sequence or string, or a
non-integer zero such as the float `0.0`) and is not the literal int
`0`; the int `0` itself, on every flag registered in the default
mapping, is rendered and yields a token `-key=0` or `-key=0.00`. -/
theorem c1_amended :
    (∀ (fmts : List (String × Fmt)) (key delim : String) (val : Val),
      FlagFormatter.call fmts key val delim = Except.ok none ↔
        (truthy val = false ∧ isIntZero val = false)) ∧
    (∀ kv : String × Fmt, kv ∈ defaultFmtDict →
      ∃ zs, FlagFormatter.call defaultFmtDict kv.1 (Val.int 0) "," =
        Except.ok (some ("-" ++ kv.1 ++ "=" ++ zs))) := by
  constructor
  · exact fun fmts key delim val => call_none_iff fmts key delim val
  · intro kv hkv
    simp only [defaultFmtDict, List.mem_cons, List.not_mem_nil, or_false] at hkv
    rcases hkv with rfl | rfl | rfl | rfl | rfl | rfl | rfl | rfl | rfl | rfl | rfl
      | rfl | rfl | rfl | rfl | rfl | rfl | rfl | rfl | rfl | rfl <;>
      first
        | exact ⟨"0.00", by rfl⟩
        | exact ⟨"0", by rfl⟩

/-- C1, witness for the amended claim at concrete inputs: `False` maps to
`None` even with an empty rule mapping, and the int `0` on `zerobin`
yields the token `-zerobin=0`. -/
theorem c1_amended_witness :
    (FlagFormatter.call [] "zerobin" Val.pyFalse "," = Except.ok none ↔
      (truthy Val.pyFalse = false ∧ isIntZero Val.pyFalse = false)) ∧
    (∃ zs, FlagFormatter.call defaultFmtDict "zerobin" (Val.int 0) "," =
      Except.ok (some ("-" ++ "zerobin" ++ "=" ++ zs))) :=
  ⟨c1_amended.1 [] "zerobin" "," Val.pyFalse,
   c1_amended.2 ("zerobin", Fmt.pat Pat.d) (by decide)⟩

/-! ### C2 -/

/-- C2, counterexample: flag `dAv` reassigned the two-pattern rule
`['{:d}', '{:d}']` and given the three-element value `[1, 2, 3]` --- a
length mismatch the claim says must be reported as a formatting
failure --- instead produces the token `-dAv=1,2`: `zip` silently
truncates to the shorter sequence and no error is raised. -/
theorem c2_mismatch_not_reported :
    FlagFormatter.call (FlagFormatter.init [("dAv", Fmt.seq [Pat.d, Pat.d])]) "dAv"
      (Val.seq [Val.int 1, Val.int 2, Val.int 3]) "," =
      Except.ok (some "-dAv=1,2") := by
  rfl

/-- C2, amended: when the registered rule is a sequence of patterns and
the value is a (nonempty) sequence, lengths are not checked: the value
and pattern sequences are zipped, silently truncating to the shorter
side, and whenever every retained pair formats successfully the call
returns a token over the truncated pairing instead of reporting any
failure. -/
theorem c2_amended (fmts : List (String × Fmt)) (key : String) (vs : List Val)
    (ps : List Pat) (delim : String) (l : List String)
    (hrule : fmts.lookup key = some (Fmt.seq ps))
    (hne : vs ≠ [])
    (hfmt : mapExcept (fun vp => Pat.format vp.2 vp.1) (vs.zip ps) = Except.ok l) :
    FlagFormatter.call fmts key (Val.seq vs) delim =
      Except.ok (some ("-" ++ key ++ "=" ++ String.intercalate delim l)) := by
  have htr : truthy (Val.seq vs) = true := by
    cases vs with
    | nil => exact absurd rfl hne
    | cons a as => rfl
  simp [FlagFormatter.call, isPyTrue, htr, hrule, tryFormats, hfmt, Except.map]

/-- C2, witness: a one-pattern rule zipped against a two-element value
formats only the first element, yielding `-dAv=7`. -/
theorem c2_amended_witness :
    FlagFormatter.call (FlagFormatter.init [("dAv", Fmt.seq [Pat.d])]) "dAv"
      (Val.seq [Val.int 7, Val.int 8]) "," =
      Except.ok (some ("-" ++ "dAv" ++ "=" ++ String.intercalate "," ["7"])) :=
  c2_amended _ "dAv" _ [Pat.d] "," ["7"] (by rfl) (by simp) (by rfl)

/-! ### C3 -/

/-- C3, counterexample: the claim says every string value on a registered
flag is formatted and returns a token, but `zerobin`'s default pattern
is `'{:d}'`, and `'{:d}'.format('abc')` raises `ValueError`: the call
reports an error rather than returning a token. -/
theorem c3_string_can_raise :
    FlagFormatter.call defaultFmtDict "zerobin" (Val.str "abc") "," =
      Except.error PyErr.valueError := by
  rfl

/-- C3, amended: a (nonempty) string value is always treated as one
atomic scalar --- it is never zipped position-wise against a
multi-pattern rule and never iterated as a sequence of characters.
With a single-pattern rule the pattern is applied once to the whole
string (a token results exactly when the pattern accepts strings, e.g.
`'{:s}'`; the numeric patterns raise `ValueError`); with a
sequence-of-patterns rule the call raises `AttributeError` (from
`list.format`), still without zipping. -/
theorem c3_amended (fmts : List (String × Fmt)) (key s2 delim : String)
    (hs : s2 ≠ "") :
    (∀ ps, fmts.lookup key = some (Fmt.seq ps) →
      FlagFormatter.call fmts key (Val.str s2) delim =
        Except.error PyErr.attributeError) ∧
    (∀ p, fmts.lookup key = some (Fmt.pat p) →
      FlagFormatter.call fmts key (Val.str s2) delim =
        (Pat.format p (Val.str s2)).map (fun t => some ("-" ++ key ++ "=" ++ t))) := by
  have htr : truthy (Val.str s2) = true := by simp [truthy, hs]
  constructor
  · intro ps hx
    simp [FlagFormatter.call, isPyTrue, htr, hx]
  · intro p hx
    simp [FlagFormatter.call, isPyTrue, htr, hx]

/-- C3, witness: a two-pattern rule on `dAv` with the string `"xy"`
raises `AttributeError` (no zipping), and the scalar rule of `zerobin`
is applied to the whole string. -/
theorem c3_amended_witness :
    FlagFormatter.call (FlagFormatter.init [("dAv", Fmt.seq [Pat.d, Pat.d])]) "dAv"
      (Val.str "xy") "," = Except.error PyErr.attributeError ∧
    FlagFormatter.call defaultFmtDict "zerobin" (Val.str "xy") "," =
      (Pat.format Pat.d (Val.str "xy")).map
        (fun t => some ("-" ++ "zerobin" ++ "=" ++ t)) :=
  ⟨(c3_amended _ "dAv" "xy" "," (by decide)).1 [Pat.d, Pat.d] (by rfl),
   (c3_amended _ "zerobin" "xy" "," (by decide)).2 Pat.d (by rfl)⟩

/-! ### C4 -/

/-- C4: for a flag name with no registered rule, any value that reaches
the `-name=value` rendering step (truthy and not the `True` sentinel,
or the int `0`) makes `__call__` raise `KeyError` --- a `LookupError`
subclass --- at the `self.fmt_dict[key]` lookup of line 166. -/
theorem c4_missing_rule_keyError (fmts : List (String × Fmt))
    (key delim : String) (val : Val)
    (hmiss : fmts.lookup key = none)
    (hval : ((truthy val && !isPyTrue val) || isIntZero val) = true) :
    FlagFormatter.call fmts key val delim = Except.error PyErr.keyError := by
  have hT : isPyTrue val = false := by
    cases val <;> simp_all [isPyTrue, truthy, isIntZero]
  have hG : (truthy val || isIntZero val) = true := by
    rw [hT] at hval
    simpa using hval
  simp [FlagFormatter.call, hT, hG, hmiss]

/-- C4, witness: `appDmod` has no entry in the default `fmt_dict`
(although `calcsfh` lists it as a flag), so a truthy int value raises
`KeyError`. -/
theorem c4_witness :
    FlagFormatter.call defaultFmtDict "appDmod" (Val.int 5) "," =
      Except.error PyErr.keyError :=
  c4_missing_rule_keyError defaultFmtDict "appDmod" "," (Val.int 5)
    (by rfl) (by rfl)

/-! ### C5 -/

/-- C5: for every registered flag name and the boolean-true value,
`__call__` returns exactly `'-name'`: line 163 short-circuits before any
formatting, so no `=` and no value are appended. -/
theorem c5_true_presence_flag (fmts : List (String × Fmt)) (key delim : String)
    (_hreg : (fmts.lookup key).isSome = true) :
    FlagFormatter.call fmts key Val.pyTrue delim =
      Except.ok (some ("-" ++ key)) :=
  callTrueEq fmts key delim

/-- C5, witness at the registered flag `dAv` of the default mapping. -/
theorem c5_witness :
    FlagFormatter.call defaultFmtDict "dAv" Val.pyTrue "," =
      Except.ok (some ("-" ++ "dAv")) :=
  c5_true_presence_flag defaultFmtDict "dAv" "," (by rfl)

/-! ### C9 -/

/-- C9: `zcmerge` on `['real.zcb','sim1.zcb','sim2.zcb']` and
`merged.zcb` with `absolute=True` and `norun=True` returns exactly
`zcmerge -absolute real.zcb sim1.zcb sim2.zcb > merged.zcb`. -/
theorem c9_zcmerge_exact :
    zcmerge (StrOrList.many ["real.zcb", "sim1.zcb", "sim2.zcb"]) "merged.zcb"
      [("absolute", Val.pyTrue), ("norun", Val.pyTrue)] =
      Except.ok (some "zcmerge -absolute real.zcb sim1.zcb sim2.zcb > merged.zcb") := by
  rfl

/-! ### C10 -/

/-- C10: with any rule mapping at all (registered or not --- the mapping
is universally quantified, so in particular an empty one), a `True`
value yields the presence token `'-name'` and the falsy values `False`,
`None`, the empty sequence and the empty string yield `None`, all
without consulting the mapping and without any lookup error: only a
value that must actually be formatted can raise for an unregistered
name. -/
theorem c10_no_lookup_for_bool_falsy (fmts : List (String × Fmt))
    (key delim : String) :
    FlagFormatter.call fmts key Val.pyTrue delim = Except.ok (some ("-" ++ key)) ∧
    FlagFormatter.call fmts key Val.pyFalse delim = Except.ok none ∧
    FlagFormatter.call fmts key Val.pyNone delim = Except.ok none ∧
    FlagFormatter.call fmts key (Val.seq []) delim = Except.ok none ∧
    FlagFormatter.call fmts key (Val.str "") delim = Except.ok none :=
  ⟨rfl, rfl, rfl, rfl, rfl⟩

/-! ### C6 -/

/-- Dict assignment changes exactly the assigned key's binding. -/
theorem updAssoc_lookup {β : Type} (l : List (String × β)) (k k2 : String) (v : β) :
    (updAssoc l k v).lookup k2 = if k2 = k then some v else l.lookup k2 := by
  induction l with
  | nil =>
    by_cases h : k2 = k
    · subst h; simp [updAssoc, List.lookup]
    · have hb : (k2 == k) = false := beq_eq_false_iff_ne.mpr h
      simp [updAssoc, List.lookup, hb, h]
  | cons p rest ih =>
    rcases p with ⟨pk, pv⟩
    by_cases h1 : pk = k
    · subst h1
      by_cases h2 : k2 = pk
      · subst h2; simp [updAssoc, List.lookup]
      · have hb : (k2 == pk) = false := beq_eq_false_iff_ne.mpr h2
        simp [updAssoc, List.lookup, hb, h2]
    · have hb1 : (pk == k) = false := beq_eq_false_iff_ne.mpr h1
      by_cases h2 : k2 = pk
      · have hk2k : ¬k2 = k := fun hh => h1 (h2.symm.trans hh)
        have hb2 : (k2 == pk) = true := beq_iff_eq.mpr h2
        have hbk : (k2 == k) = false := beq_eq_false_iff_ne.mpr hk2k
        simp [updAssoc, List.lookup, hb1, hb2, hbk, hk2k]
      · have hb2 : (k2 == pk) = false := beq_eq_false_iff_ne.mpr h2
        simp [updAssoc, List.lookup, hb1, hb2, h2, ih]

/-- The override step never adds or removes keys. -/
theorem initStep_isSome (d : List (String × Fmt)) (kv : String × Fmt) (k2 : String) :
    ((initStep d kv).lookup k2).isSome = (d.lookup k2).isSome := by
  unfold initStep
  by_cases h : (d.lookup kv.1).isSome
  · rw [if_pos h, updAssoc_lookup]
    by_cases h2 : k2 = kv.1
    · subst h2; simp [h]
    · simp [h2]
  · rw [if_neg h]

/-- Keys not named by any override keep their binding through the loop. -/
theorem initFold_lookup_notmem (ov : List (String × Fmt)) (d : List (String × Fmt))
    (k2 : String) (h : k2 ∉ ov.map Prod.fst) :
    (ov.foldl initStep d).lookup k2 = d.lookup k2 := by
  induction ov generalizing d with
  | nil => rfl
  | cons kv rest ih =>
    simp only [List.map_cons, List.mem_cons, not_or] at h
    rw [List.foldl_cons, ih _ h.2]
    unfold initStep
    by_cases hp : (d.lookup kv.1).isSome
    · rw [if_pos hp, updAssoc_lookup, if_neg h.1]
    · rw [if_neg hp]

/-- An override whose key is present in the accumulator ends up bound to
the override value, provided no later override reuses the key. -/
theorem initFold_assign (ov : List (String × Fmt)) (d : List (String × Fmt))
    (k : String) (v : Fmt) (hnd : (ov.map Prod.fst).Nodup)
    (hmem : (k, v) ∈ ov) (hsome : (d.lookup k).isSome = true) :
    (ov.foldl initStep d).lookup k = some v := by
  induction ov generalizing d with
  | nil => cases hmem
  | cons kv rest ih =>
    rw [List.map_cons, List.nodup_cons] at hnd
    rw [List.foldl_cons]
    rcases List.mem_cons.mp hmem with heq | hrest
    · subst heq
      rw [initFold_lookup_notmem rest _ k hnd.1]
      unfold initStep
      rw [if_pos hsome, updAssoc_lookup, if_pos rfl]
    · exact ih _ hnd.2 hrest (by rw [initStep_isSome]; exact hsome)

/-- C6: the constructor replaces the default rule for every override key
already present in the default mapping (here stated for override lists
without repeated keys, as produced by `**kwargs`), and silently ignores
every key that is not; overrides consisting only of unknown keys leave
the mapping equal to the system defaults. -/
theorem c6_ctor_overrides :
    (∀ (ov : List (String × Fmt)) (k : String) (v : Fmt),
      (ov.map Prod.fst).Nodup → (k, v) ∈ ov →
      (defaultFmtDict.lookup k).isSome = true →
      (FlagFormatter.init ov).lookup k = some v) ∧
    (∀ ov : List (String × Fmt),
      (∀ kv ∈ ov, defaultFmtDict.lookup kv.1 = none) →
      FlagFormatter.init ov = defaultFmtDict) := by
  constructor
  · intro ov k v hnd hmem hsome
    exact initFold_assign ov defaultFmtDict k v hnd hmem hsome
  · intro ov h
    unfold FlagFormatter.init
    induction ov with
    | nil => rfl
    | cons kv rest ih =>
      rw [List.foldl_cons]
      have hk : defaultFmtDict.lookup kv.1 = none := h kv (List.mem_cons_self kv rest)
      have : initStep defaultFmtDict kv = defaultFmtDict := by
        unfold initStep
        rw [hk]
        rfl
      rw [this]
      exact ih (fun kv2 h2 => h kv2 (List.mem_cons_of_mem kv h2))

/-- C6, witness: overriding `dAv` (a default key) takes effect, while an
override for the unknown key `absolute` leaves the defaults untouched. -/
theorem c6_witness :
    (FlagFormatter.init [("dAv", Fmt.pat Pat.d)]).lookup "dAv" = some (Fmt.pat Pat.d) ∧
    FlagFormatter.init [("absolute", Fmt.pat Pat.d)] = defaultFmtDict :=
  ⟨c6_ctor_overrides.1 [("dAv", Fmt.pat Pat.d)] "dAv" (Fmt.pat Pat.d)
      (by simp) (by simp) (by rfl),
   c6_ctor_overrides.2 [("absolute", Fmt.pat Pat.d)]
      (by
        intro kv hkv
        rw [List.mem_singleton] at hkv
        subst hkv
        rfl)⟩

/-! ### C8 -/

/-- Appending flag tokens only extends the command string. -/
theorem joinCmd_extends (cmd : String) (toks : List String) :
    ∃ x, joinCmd cmd toks = cmd ++ x := by
  unfold joinCmd
  by_cases h : toks.isEmpty
  · exact ⟨"", by rw [if_pos h, String.append_empty]⟩
  · exact ⟨" " ++ String.intercalate " " toks,
      by rw [if_neg h, String.append_assoc]⟩

/-- The redirection step only extends the command string. -/
theorem outfileStep_extends (kw : List (String × Val)) (cmd c2 : String)
    (h : outfileStep kw cmd = .ok c2) : ∃ x, c2 = cmd ++ x := by
  unfold outfileStep at h
  split at h
  · rename_i s2 hget
    split at h
    · exact ⟨"", by rw [String.append_empty]; exact (Except.ok.inj h).symm⟩
    · exact ⟨" > " ++ s2, by rw [← String.append_assoc]; exact (Except.ok.inj h).symm⟩
  · split at h
    · exact absurd h (by simp)
    · exact ⟨"", by rw [String.append_empty]; exact (Except.ok.inj h).symm⟩

/-- The assembled `hybridMC` command always extends the swapped
positional prefix. -/
theorem hybridMCCmd_extends (hmcdatfile hmcsfhfile : String)
    (kw : List (String × Val)) (c : String)
    (h : hybridMCCmd hmcdatfile hmcsfhfile kw = .ok c) :
    ∃ x, c = "hybridMC " ++ hmcsfhfile ++ " " ++ hmcdatfile ++ x := by
  unfold hybridMCCmd at h
  cases hR : renderFlags defaultFmtDict kw hybridMCFlagList with
  | error e => rw [hR] at h; exact absurd h (by simp)
  | ok toks =>
    rw [hR] at h
    obtain ⟨x1, hx1⟩ :=
      joinCmd_extends ("hybridMC " ++ hmcsfhfile ++ " " ++ hmcdatfile) toks
    obtain ⟨x2, hx2⟩ := outfileStep_extends kw _ c h
    refine ⟨x1 ++ x2, ?_⟩
    rw [hx2, hx1, String.append_assoc, String.append_assoc, String.append_assoc]

/-- C8: whenever `hybridMC` is called with a truthy `norun` and returns a
command string, that string starts with `hybridMC`, then the SFH output
file, then the binary data file --- the two positional arguments in
reversed order relative to the function's own parameter order
(`hmcdatfile` first, `hmcsfhfile` second). -/
theorem c8_positional_swap (hmcdatfile hmcsfhfile : String)
    (kw : List (String × Val)) (cmd : String)
    (hnorun : truthy (getKw kw "norun") = true)
    (heq : hybridMC hmcdatfile hmcsfhfile kw = .ok (some cmd)) :
    ∃ rest, cmd = "hybridMC " ++ hmcsfhfile ++ " " ++ hmcdatfile ++ rest := by
  unfold hybridMC at heq
  cases hC : hybridMCCmd hmcdatfile hmcsfhfile kw with
  | error e => rw [hC] at heq; exact absurd heq (by simp)
  | ok c2 =>
    rw [hC] at heq
    have h2 : norunStep kw c2 = some cmd := Except.ok.inj heq
    have hcmd : cmd = c2 := by
      unfold norunStep at h2
      rw [hnorun] at h2
      exact (Option.some.inj h2).symm
    rw [hcmd]
    exact hybridMCCmd_extends hmcdatfile hmcsfhfile kw c2 hC

/-- C8, witness: `hybridMC('a.dat', 'b.sfh', norun=True)` returns
`hybridMC b.sfh a.dat`, which indeed extends the swapped positional
prefix. -/
theorem c8_witness :
    ∃ rest, "hybridMC b.sfh a.dat" =
      "hybridMC " ++ "b.sfh" ++ " " ++ "a.dat" ++ rest :=
  c8_positional_swap "a.dat" "b.sfh" [("norun", Val.pyTrue)]
    "hybridMC b.sfh a.dat" (by rfl) (by rfl)

/-! ### C7: auxiliary notions -/

/-- `p` is a textual prefix of `s` (on the underlying character lists). -/
def strHasPre (p s : String) : Bool :=
  p.data.isPrefixOf s.data

/-- If `p` is a prefix of `s ++ t`, then either `p` is a prefix of `s`,
or `s` is a prefix of `p`. -/
theorem isPrefixOf_append_cases {α : Type} [BEq α] [LawfulBEq α] :
    ∀ (p s t : List α), p.isPrefixOf (s ++ t) = true →
      p.isPrefixOf s = true ∨ s.isPrefixOf p = true := by
  intro p
  induction p with
  | nil => intro s t _; exact Or.inl (by cases s <;> rfl)
  | cons a as ih =>
    intro s t h
    cases s with
    | nil => exact Or.inr rfl
    | cons b bs =>
      rw [List.cons_append] at h
      simp only [List.isPrefixOf] at h
      simp only [Bool.and_eq_true] at h
      rcases h with ⟨hab, hrest⟩
      have hab2 : a = b := eq_of_beq hab
      subst hab2
      rcases ih bs t hrest with h1 | h2
      · exact Or.inl (by simp only [List.isPrefixOf]; rw [h1]; simp)
      · exact Or.inr (by simp only [List.isPrefixOf]; rw [h2]; simp)

/-- None of the fixed `calcsfh` flag names can give rise to a token with
the textual prefix `-alpha=`, whatever the formatted value. -/
theorem fixedNamesNoAlpha :
    ∀ f ∈ calcsfhFixedFlags,
      ("-alpha=".data.isPrefixOf ("-" ++ f).data = false) ∧
      ("-alpha=".data.isPrefixOf ("-" ++ f ++ "=").data = false) ∧
      (("-" ++ f ++ "=").data.isPrefixOf "-alpha=".data = false) := by
  decide

/-- A token rendered for flag `f` (`'-f'` or `'-f=...'`) carries the
prefix `-alpha=` only if the name `f` itself clashes with it. -/
theorem tokenNoAlphaEq (f t : String)
    (hshape : t = "-" ++ f ∨ ∃ r, t = "-" ++ f ++ "=" ++ r)
    (h1 : "-alpha=".data.isPrefixOf ("-" ++ f).data = false)
    (h2 : "-alpha=".data.isPrefixOf ("-" ++ f ++ "=").data = false)
    (h3 : ("-" ++ f ++ "=").data.isPrefixOf "-alpha=".data = false) :
    strHasPre "-alpha=" t = false := by
  rcases hshape with rfl | ⟨r, rfl⟩
  · exact h1
  · unfold strHasPre
    rw [String.data_append]
    apply Bool.eq_false_iff.mpr
    intro htrue
    rcases isPrefixOf_append_cases "-alpha=".data ("-" ++ f ++ "=").data r.data htrue
      with hA | hB
    · rw [h2] at hA; cases hA
    · rw [h3] at hB; cases hB

/-- Prepending the `-` of a flag token: `-alpha=` prefixes `-m` exactly
when `alpha=` prefixes `m`. -/
theorem dashPre (m : String) :
    strHasPre "-alpha=" ("-" ++ m) = strHasPre "alpha=" m := by
  unfold strHasPre
  rw [String.data_append]
  show List.isPrefixOf ('-' :: "alpha=".data) ('-' :: m.data) = _
  simp [List.isPrefixOf]

/-- Membership in a successful `mapExcept` run comes from some input
element mapped successfully. -/
theorem mapExcept_mem {α β : Type} (g : α → Except PyErr β) :
    ∀ (l : List α) (bs : List β), mapExcept g l = .ok bs → ∀ b ∈ bs,
      ∃ a ∈ l, g a = .ok b := by
  intro l
  induction l with
  | nil =>
    intro bs h b hb
    cases h
    cases hb
  | cons a as ih =>
    intro bs h b hb
    unfold mapExcept at h
    cases hga : g a with
    | error e => rw [hga] at h; cases h
    | ok b0 =>
      rw [hga] at h
      cases hrest : mapExcept g as with
      | error e => rw [hrest] at h; cases h
      | ok bs0 =>
        rw [hrest] at h
        cases h
        rcases List.mem_cons.mp hb with rfl | hb2
        · exact ⟨a, List.mem_cons_self a as, hga⟩
        · obtain ⟨a2, ha2, hga2⟩ := ih bs0 hrest b hb2
          exact ⟨a2, List.mem_cons_of_mem a ha2, hga2⟩

/-- Every token produced by `renderFlags` is the rendering of one of the
flags of the active list at its keyword value. -/
theorem renderFlags_mem (fmts : List (String × Fmt)) (kw : List (String × Val))
    (flags : List String) (toks : List String) (t : String)
    (h : renderFlags fmts kw flags = .ok toks) (ht : t ∈ toks) :
    ∃ f ∈ flags, FlagFormatter.call fmts f (getKw kw f) "," = .ok (some t) := by
  unfold renderFlags at h
  cases hm : mapExcept (fun f => FlagFormatter.call fmts f (getKw kw f) ",") flags with
  | error e => rw [hm] at h; cases h
  | ok opts =>
    rw [hm] at h
    cases h
    obtain ⟨o, ho, hid⟩ := List.mem_filterMap.mp ht
    obtain ⟨f, hf, hgf⟩ := mapExcept_mem _ flags opts hm o ho
    exact ⟨f, hf, by rw [hgf]; exact congrArg Except.ok hid⟩

/-- Dict assignment through `kwargs.get`. -/
theorem getKw_pySet (kw : List (String × Val)) (k k2 : String) (v : Val) :
    getKw (pySet kw k v) k2 = if k2 = k then v else getKw kw k2 := by
  unfold getKw pySet
  rw [updAssoc_lookup]
  by_cases h : k2 = k
  · rw [if_pos h, if_pos h]; rfl
  · rw [if_neg h, if_neg h]

/-- Shape of a successful selection branch: either the selection keyword
was falsy and nothing happened, or it held a nonempty string that became
both a `True`-valued keyword and the extra flag name. -/
theorem selApply_ok (kw kw2 : List (String × Val)) (selKey : String)
    (sel : Option String) (h : selApply kw selKey = .ok (kw2, sel)) :
    (sel = none ∧ kw2 = kw) ∨
    (∃ s2, sel = some s2 ∧ kw2 = pySet kw s2 .pyTrue ∧
      getKw kw selKey = .str s2 ∧ s2 ≠ "") := by
  unfold selApply at h
  split at h
  · rename_i s2 hget
    split at h
    · rename_i hemp
      cases h
      exact Or.inl ⟨rfl, rfl⟩
    · rename_i hemp
      cases h
      exact Or.inr ⟨s2, rfl, rfl, hget, by simpa using hemp⟩
  · rename_i v hnstr
    split at h
    · cases h
    · cases h
      exact Or.inl ⟨rfl, rfl⟩

/-- A selection branch that fires leaves its own flag keyword `True`. -/
theorem selApply_sets_pyTrue (kw kw2 : List (String × Val)) (selKey m : String)
    (h : selApply kw selKey = .ok (kw2, some m)) :
    getKw kw2 m = Val.pyTrue := by
  rcases selApply_ok kw kw2 selKey (some m) h with ⟨hn, _⟩ | ⟨s2, hs, rfl, _, _⟩
  · cases hn
  · cases hs
    rw [getKw_pySet, if_pos rfl]

/-- Later selection branches keep a `True` keyword `True` (they only
ever write `True`). -/
theorem selApply_preserves_pyTrue (kw kw2 : List (String × Val))
    (selKey m : String) (sel : Option String)
    (h : selApply kw selKey = .ok (kw2, sel))
    (hm : getKw kw m = Val.pyTrue) : getKw kw2 m = Val.pyTrue := by
  rcases selApply_ok kw kw2 selKey sel h with ⟨_, rfl⟩ | ⟨s2, _, rfl, _, _⟩
  · exact hm
  · rw [getKw_pySet]
    by_cases h2 : m = s2
    · rw [if_pos h2]
    · rw [if_neg h2]; exact hm

/-- A string-valued keyword seen after a selection branch was already
string-valued before it (branches only write `True`). -/
theorem selApply_getKw_back (kw kw2 : List (String × Val))
    (selKey k2 : String) (sel : Option String) (s2 : String)
    (h : selApply kw selKey = .ok (kw2, sel))
    (hg : getKw kw2 k2 = Val.str s2) : getKw kw k2 = Val.str s2 := by
  rcases selApply_ok kw kw2 selKey sel h with ⟨_, rfl⟩ | ⟨m, _, rfl, _, _⟩
  · exact hg
  · rw [getKw_pySet] at hg
    by_cases h2 : k2 = m
    · rw [if_pos h2] at hg; cases hg
    · rw [if_neg h2] at hg; exact hg

/-- `kwargs.get` returning a string means the dict holds that string. -/
theorem getKw_str_lookup (kw : List (String × Val)) (k s2 : String)
    (h : getKw kw k = Val.str s2) : kw.lookup k = some (Val.str s2) := by
  unfold getKw at h
  cases hL : kw.lookup k with
  | none => rw [hL] at h; cases h
  | some v => rw [hL] at h; rw [show v = Val.str s2 from h]

/-! ### C7: main theorem -/

/-- Whenever `__call__` returns a token, it is `'-key'` or `'-key=...'`
for the requested key. -/
theorem call_token_shape (fmts : List (String × Fmt)) (key delim t : String)
    (val : Val)
    (h : FlagFormatter.call fmts key val delim = .ok (some t)) :
    t = "-" ++ key ∨ ∃ rest, t = "-" ++ key ++ "=" ++ rest := by
  rcases call_ok_cases fmts key delim val (some t) h with h1 | ⟨r, h1⟩ | ⟨h1, _⟩
  · exact Or.inl (Option.some.inj h1)
  · exact Or.inr ⟨r, Option.some.inj h1⟩
  · cases h1

/-- C7: in every `calcsfh` call whose `model` keyword is not the
Dartmouth selection `'DART'` (absent, falsy, or a string other than
`'DART'`), the assembled flag tokens contain no `-alpha=...` token, even
when an `alpha` value is supplied in the options: the `alpha` flag is
appended to the active flag list only under the `'DART'` model branch of
line 287-288.  The `mode`/`model`/`transformation` hypotheses also rule
out a selection *name* that itself starts with the text `alpha=` (such a
name would be echoed verbatim as a `-alpha=...` presence token). -/
theorem c7_no_alpha_token (kw : List (String × Val)) (toks : List String)
    (t : String)
    (hmode : ∀ s2 : String, kw.lookup "mode" = some (Val.str s2) →
      strHasPre "alpha=" s2 = false)
    (hmodel : ∀ s2 : String, kw.lookup "model" = some (Val.str s2) →
      strHasPre "alpha=" s2 = false ∧ s2 ≠ "DART")
    (htrans : ∀ s2 : String, kw.lookup "transformation" = some (Val.str s2) →
      strHasPre "alpha=" s2 = false)
    (htoks : calcsfhTokens kw = .ok toks) (hmem : t ∈ toks) :
    strHasPre "-alpha=" t = false := by
  unfold calcsfhTokens at htoks
  cases hF : calcsfhFlags kw with
  | error e => rw [hF] at htoks; cases htoks
  | ok pr =>
    obtain ⟨kw3, flagList⟩ := pr
    have htoks2 : renderFlags defaultFmtDict kw3 flagList = .ok toks := by
      rw [hF] at htoks; exact htoks
    unfold calcsfhFlags at hF
    split at hF
    · cases hF
    · rename_i kw1 modeSel h1
      split at hF
      · cases hF
      · rename_i kw2 modelSel h2
        split at hF
        · cases hF
        · rename_i kw3b transSel h3
          injection hF with hF2
          injection hF2 with hkw3 hfl
          subst hkw3
          subst hfl
          have hdartlist : (if modelSel = some "DART" then ["alpha"] else []) = [] := by
            rcases selApply_ok kw1 kw2 "model" modelSel h2 with ⟨hn, _⟩ |
              ⟨s2, hs, _, hget, _⟩
            · rw [hn]; rfl
            · have hlk : kw.lookup "model" = some (Val.str s2) :=
                getKw_str_lookup kw "model" s2
                  (selApply_getKw_back kw kw1 "mode" "model" modeSel s2 h1 hget)
              rw [hs]
              exact if_neg (fun hcon => (hmodel s2 hlk).2 (Option.some.inj hcon))
          obtain ⟨f, hfmem, hcall⟩ :=
            renderFlags_mem defaultFmtDict kw3b _ toks t htoks2 hmem
          rw [hdartlist] at hfmem
          simp only [List.append_nil, List.mem_append] at hfmem
          rcases hfmem with ((hA | hB) | hC) | hD
          · -- token of the mode selection flag
            cases hmsel : modeSel with
            | none => rw [hmsel] at hA; cases hA
            | some m =>
              rw [hmsel] at hA
              have hfm : f = m := by simpa using hA
              subst hfm
              rw [hmsel] at h1
              have hv1 : getKw kw1 f = Val.pyTrue :=
                selApply_sets_pyTrue kw kw1 "mode" f h1
              have hv2 : getKw kw2 f = Val.pyTrue :=
                selApply_preserves_pyTrue kw1 kw2 "model" f modelSel h2 hv1
              have hv3 : getKw kw3b f = Val.pyTrue :=
                selApply_preserves_pyTrue kw2 kw3b "transformation" f transSel h3 hv2
              rw [hv3, callTrueEq] at hcall
              have ht2 : t = "-" ++ f := (Option.some.inj (Except.ok.inj hcall)).symm
              rw [ht2, dashPre]
              rcases selApply_ok kw kw1 "mode" (some f) h1 with ⟨hn, _⟩ |
                ⟨s2, hs, _, hget, _⟩
              · cases hn
              · have hsf : s2 = f := Option.some.inj hs.symm
                subst hsf
                exact hmode s2 (getKw_str_lookup kw "mode" s2 hget)
          · -- token of a fixed flag
            obtain ⟨n1, n2, n3⟩ := fixedNamesNoAlpha f hB
            exact tokenNoAlphaEq f t
              (call_token_shape defaultFmtDict f "," t (getKw kw3b f) hcall) n1 n2 n3
          · -- token of the model selection flag
            cases hmsel : modelSel with
            | none => rw [hmsel] at hC; cases hC
            | some m =>
              rw [hmsel] at hC
              have hfm : f = m := by simpa using hC
              subst hfm
              rw [hmsel] at h2
              have hv2 : getKw kw2 f = Val.pyTrue :=
                selApply_sets_pyTrue kw1 kw2 "model" f h2
              have hv3 : getKw kw3b f = Val.pyTrue :=
                selApply_preserves_pyTrue kw2 kw3b "transformation" f transSel h3 hv2
              rw [hv3, callTrueEq] at hcall
              have ht2 : t = "-" ++ f := (Option.some.inj (Except.ok.inj hcall)).symm
              rw [ht2, dashPre]
              rcases selApply_ok kw1 kw2 "model" (some f) h2 with ⟨hn, _⟩ |
                ⟨s2, hs, _, hget, _⟩
              · cases hn
              · have hsf : s2 = f := Option.some.inj hs.symm
                subst hsf
                have hlk : kw.lookup "model" = some (Val.str s2) :=
                  getKw_str_lookup kw "model" s2
                    (selApply_getKw_back kw kw1 "mode" "model" modeSel s2 h1 hget)
                exact (hmodel s2 hlk).1
          · -- token of the transformation selection flag
            cases htsel : transSel with
            | none => rw [htsel] at hD; cases hD
            | some m =>
              rw [htsel] at hD
              have hfm : f = m := by simpa using hD
              subst hfm
              rw [htsel] at h3
              have hv3 : getKw kw3b f = Val.pyTrue :=
                selApply_sets_pyTrue kw2 kw3b "transformation" f h3
              rw [hv3, callTrueEq] at hcall
              have ht2 : t = "-" ++ f := (Option.some.inj (Except.ok.inj hcall)).symm
              rw [ht2, dashPre]
              rcases selApply_ok kw2 kw3b "transformation" (some f) h3 with ⟨hn, _⟩ |
                ⟨s2, hs, _, hget, _⟩
              · cases hn
              · have hsf : s2 = f := Option.some.inj hs.symm
                subst hsf
                have hlk : kw.lookup "transformation" = some (Val.str s2) :=
                  getKw_str_lookup kw "transformation" s2
                    (selApply_getKw_back kw kw1 "mode" "transformation" modeSel s2 h1
                      (selApply_getKw_back kw1 kw2 "model" "transformation" modelSel s2
                        h2 hget))
                exact htrans s2 hlk

/-- C7, witness: a call with `model='PADUA06'`, a supplied `alpha`
value, and `ddist=True` assembles exactly the tokens `-ddist` and
`-PADUA06`; the first carries no `-alpha=` prefix (nor does any other,
by the theorem). -/
theorem c7_witness :
    calcsfhTokens [("ddist", Val.pyTrue), ("alpha", Val.float 1),
      ("model", Val.str "PADUA06")] = .ok ["-ddist", "-PADUA06"] ∧
    strHasPre "-alpha=" "-ddist" = false := by
  constructor
  · rfl
  · exact c7_no_alpha_token
      [("ddist", Val.pyTrue), ("alpha", Val.float 1), ("model", Val.str "PADUA06")]
      ["-ddist", "-PADUA06"] "-ddist"
      (fun s2 h => by
        rw [show List.lookup "mode"
          [("ddist", Val.pyTrue), ("alpha", Val.float 1),
           ("model", Val.str "PADUA06")] = none from rfl] at h
        cases h)
      (fun s2 h => by
        rw [show List.lookup "model"
          [("ddist", Val.pyTrue), ("alpha", Val.float 1),
           ("model", Val.str "PADUA06")] = some (Val.str "PADUA06") from rfl] at h
        have hs : s2 = "PADUA06" := (Val.str.inj (Option.some.inj h)).symm
        subst hs
        exact ⟨by decide, by decide⟩)
      (fun s2 h => by
        rw [show List.lookup "transformation"
          [("ddist", Val.pyTrue), ("alpha", Val.float 1),
           ("model", Val.str "PADUA06")] = none from rfl] at h
        cases h)
      (by rfl) (by simp)
